import Mathlib

/-!
Shallow embedding of the core numeric logic of the `bevy_parallaxation2d` crate
(sources under `src/`): the dual-space `Depth` type and its resolution against a
`ParallaxContext` (src/depth.rs, src/resources.rs), the per-frame translation and
one-time placement computations (src/systems.rs), the despawn-front/back scans
(src/commands.rs), and the plugin constructor (src/plugin.rs).

Rust `f32` values are modelled as exact rationals (`ℚ`).  Every constant that
appears in the code and in the verified properties (depth bounds, factors,
offsets, the `f32::MIN`/`f32::MAX` sentinels) is exactly representable in `f32`,
and the properties proved below concern the algebraic structure of the formulas.
-/

/-- Embeds `bevy::prelude::Vec2` with exact rational components. -/
structure Vec2 where
  x : ℚ
  y : ℚ
deriving DecidableEq, Repr

/-- Vec2::ZERO. -/
def Vec2.ZERO : Vec2 := ⟨0, 0⟩

/-- Vec2::ONE. -/
def Vec2.ONE : Vec2 := ⟨1, 1⟩

/-- Vec2::splat. -/
def Vec2.splat (v : ℚ) : Vec2 := ⟨v, v⟩

instance : Add Vec2 := ⟨fun a b => ⟨a.x + b.x, a.y + b.y⟩⟩

instance : Sub Vec2 := ⟨fun a b => ⟨a.x - b.x, a.y - b.y⟩⟩

instance : Div Vec2 := ⟨fun a b => ⟨a.x / b.x, a.y / b.y⟩⟩

/-- Embeds `f32::MAX = (2 - 2^-23) * 2^127` as an exact rational. -/
def f32MAX : ℚ := 2 ^ 128 - 2 ^ 104

/-- Embeds `f32::MIN = -f32::MAX` as an exact rational. -/
def f32MIN : ℚ := -(2 ^ 128 - 2 ^ 104)

/-- Embeds `ParallaxConfig` (src/resources.rs, lines 7-14). -/
structure ParallaxConfig where
  scale : ℚ
  near_depth : ℚ
  neutral_depth : ℚ
  far_depth : ℚ
deriving DecidableEq, Repr

/-- Embeds `impl Default for ParallaxConfig` (src/resources.rs, lines 29-39). -/
def ParallaxConfig.default : ParallaxConfig :=
  { scale := 1, near_depth := -10, neutral_depth := 0, far_depth := 100 }

/-- Embeds `ParallaxConfig::convert_depth` (src/resources.rs, lines 23-26):
`new_depth = neutral_depth - depth`. -/
def ParallaxConfig.convert_depth (config : ParallaxConfig) (depth : ℚ) : ℚ :=
  config.neutral_depth - depth

/-- Embeds `ParallaxContext` (src/resources.rs, line 43), a newtype holding the
configuration; the Rust field `.0` is named `cfg` here. -/
structure ParallaxContext where
  cfg : ParallaxConfig
deriving DecidableEq, Repr

/-- ParallaxContext::DEPTH_FACTOR_MIN (src/resources.rs, line 46). -/
def ParallaxContext.DEPTH_FACTOR_MIN : ℚ := 0

/-- ParallaxContext::DEPTH_FACTOR_MAX (src/resources.rs, line 47). -/
def ParallaxContext.DEPTH_FACTOR_MAX : ℚ := 100

/-- Embeds `ParallaxContext::new` (src/resources.rs, lines 51-59): when
`near_depth < far_depth` both bounds are converted (sequentially, mirroring the
two Rust assignments; `convert_depth` only reads `neutral_depth`, which neither
assignment touches), otherwise the config is stored unchanged. -/
def ParallaxContext.new (config : ParallaxConfig) : ParallaxContext :=
  if config.near_depth < config.far_depth then
    let config1 :=
      { config with near_depth := ParallaxConfig.convert_depth config config.near_depth }
    let config2 :=
      { config1 with far_depth := ParallaxConfig.convert_depth config1 config1.far_depth }
    ⟨config2⟩
  else
    ⟨config⟩

/-- Embeds `ParallaxContext::convert_depth` (src/resources.rs, lines 64-66). -/
def ParallaxContext.convert_depth (ctx : ParallaxContext) (depth : ℚ) : ℚ :=
  ParallaxConfig.convert_depth ctx.cfg depth

/-- Modelled from the spec: `ParallaxContext::scale` is called by
`Depth::to_world_with_factor` (src/depth.rs, line 91) but its definition is
absent from the sources under `src/`.  Spec section 4.1 specifies the resolution
of `Parallax(v)` as `world = (neutral - v) * scale`, so the accessor is modelled
as returning the configured global scale. -/
def ParallaxContext.scale (ctx : ParallaxContext) : ℚ :=
  ctx.cfg.scale

/-- Embeds `ParallaxContext::calculate_depth_factor` (src/resources.rs, lines
70-80): piecewise factor, multiplied by the configured scale at the end. -/
def ParallaxContext.calculate_depth_factor (ctx : ParallaxContext) (world_depth : ℚ) : ℚ :=
  (if world_depth ≤ ctx.cfg.far_depth then
    ParallaxContext.DEPTH_FACTOR_MIN
  else if ctx.cfg.near_depth ≤ world_depth then
    ParallaxContext.DEPTH_FACTOR_MAX
  else
    ctx.cfg.near_depth / (ctx.cfg.near_depth - world_depth)) * ctx.cfg.scale

/-- Embeds `DepthType` (src/depth.rs, lines 7-12).  The public Rust type `Depth`
is a transparent newtype `Depth(DepthType)`; the wrapper is elided here and the
inductive itself carries the name `Depth`. -/
inductive Depth where
  | Parallax : ℚ → Depth
  | WorldWithFactor : ℚ → ℚ → Depth
deriving DecidableEq, Repr

/-- Embeds `Depth::from_parallax` (src/depth.rs, lines 44-46). -/
def Depth.from_parallax (depth : ℚ) : Depth :=
  .Parallax depth

/-- Embeds `Depth::from_world` (src/depth.rs, lines 63-65). -/
def Depth.from_world (depth factor : ℚ) : Depth :=
  .WorldWithFactor depth factor

/-- Embeds `Depth::depth` (src/depth.rs, lines 69-74): the stored depth value
regardless of tag. -/
def Depth.depth : Depth → ℚ
  | .Parallax depth => depth
  | .WorldWithFactor depth _ => depth

/-- Embeds `Depth::depth_factor` (src/depth.rs, lines 78-83): `none` for an
unresolved `Parallax`, `some factor` once resolved. -/
def Depth.depth_factor : Depth → Option ℚ
  | .Parallax _ => none
  | .WorldWithFactor _ factor => some factor

/-- Embeds `Depth::to_world_with_factor` (src/depth.rs, lines 88-97): a
`Parallax` depth is converted and scaled, then paired with its computed factor;
a `WorldWithFactor` depth is returned unchanged. -/
def Depth.to_world_with_factor (self : Depth) (context : ParallaxContext) : Depth :=
  match self with
  | .Parallax depth =>
    let depth1 := context.convert_depth depth * context.scale
    .WorldWithFactor depth1 (context.calculate_depth_factor depth1)
  | .WorldWithFactor _ _ => self

/-- Embeds `impl Default for Depth` (src/depth.rs, lines 100-106). -/
def Depth.default : Depth :=
  .Parallax 0

/-- Embeds `impl PartialEq for Depth` (src/depth.rs, lines 115-123): numeric
equality within a tag, `false` across tags. -/
def Depth.eqb : Depth → Depth → Bool
  | .Parallax lhs, .Parallax rhs => lhs == rhs
  | .WorldWithFactor lhs _, .WorldWithFactor rhs _ => lhs == rhs
  | _, _ => false

/-- Embeds `impl PartialOrd for Depth` (src/depth.rs, lines 125-133): within a
tag, `f32::partial_cmp` of the stored values (total on the NaN-free rationals);
`none` across tags. -/
def Depth.pcmp : Depth → Depth → Option Ordering
  | .Parallax lhs, .Parallax rhs =>
    some (if lhs < rhs then .lt else if lhs = rhs then .eq else .gt)
  | .WorldWithFactor lhs _, .WorldWithFactor rhs _ =>
    some (if lhs < rhs then .lt else if lhs = rhs then .eq else .gt)
  | _, _ => none

/-- Embeds the Rust `>` on `Depth` (`PartialOrd::gt`, used at
src/commands.rs, line 18): true exactly when `partial_cmp` is `Some(Greater)`. -/
def Depth.gt (a b : Depth) : Prop :=
  a.pcmp b = some .gt

/-- Embeds the Rust `<` on `Depth` (`PartialOrd::lt`, used at
src/commands.rs, line 34): true exactly when `partial_cmp` is `Some(Less)`. -/
def Depth.lt (a b : Depth) : Prop :=
  a.pcmp b = some .lt

instance (a b : Depth) : Decidable (a.gt b) :=
  inferInstanceAs (Decidable (_ = _))

instance (a b : Depth) : Decidable (a.lt b) :=
  inferInstanceAs (Decidable (_ = _))

/-- Embeds `ParallaxFlags` (src/flags.rs): a `bitflags` set over `u8`. -/
structure ParallaxFlags where
  bits : Nat
deriving DecidableEq, Repr

/-- ParallaxFlags::NONE. -/
def ParallaxFlags.NONE : ParallaxFlags := ⟨0⟩

/-- ParallaxFlags::REPEAT_X_AXIS. -/
def ParallaxFlags.REPEAT_X_AXIS : ParallaxFlags := ⟨1⟩

/-- ParallaxFlags::REPEAT_Y_AXIS. -/
def ParallaxFlags.REPEAT_Y_AXIS : ParallaxFlags := ⟨2⟩

/-- ParallaxFlags::LOCKED_X_AXIS. -/
def ParallaxFlags.LOCKED_X_AXIS : ParallaxFlags := ⟨4⟩

/-- ParallaxFlags::LOCKED_Y_AXIS. -/
def ParallaxFlags.LOCKED_Y_AXIS : ParallaxFlags := ⟨8⟩

/-- ParallaxFlags::OFFSET_TO_CAMERA. -/
def ParallaxFlags.OFFSET_TO_CAMERA : ParallaxFlags := ⟨16⟩

/-- ParallaxFlags::HORIZONTAL_OFFSET. -/
def ParallaxFlags.HORIZONTAL_OFFSET : ParallaxFlags := ⟨32⟩

/-- ParallaxFlags::POSITIVE_OFFSET. -/
def ParallaxFlags.POSITIVE_OFFSET : ParallaxFlags := ⟨64⟩

/-- Embeds the bitflags union operator `|`. -/
def ParallaxFlags.union (a b : ParallaxFlags) : ParallaxFlags :=
  ⟨a.bits ||| b.bits⟩

/-- ParallaxFlags::OFFSET_CAMERA_LEFT = OFFSET_TO_CAMERA | HORIZONTAL_OFFSET. -/
def ParallaxFlags.OFFSET_CAMERA_LEFT : ParallaxFlags :=
  ParallaxFlags.OFFSET_TO_CAMERA.union ParallaxFlags.HORIZONTAL_OFFSET

/-- ParallaxFlags::OFFSET_CAMERA_RIGHT = OFFSET_CAMERA_LEFT | POSITIVE_OFFSET. -/
def ParallaxFlags.OFFSET_CAMERA_RIGHT : ParallaxFlags :=
  ParallaxFlags.OFFSET_CAMERA_LEFT.union ParallaxFlags.POSITIVE_OFFSET

/-- ParallaxFlags::OFFSET_CAMERA_BOTTOM = OFFSET_TO_CAMERA. -/
def ParallaxFlags.OFFSET_CAMERA_BOTTOM : ParallaxFlags :=
  ParallaxFlags.OFFSET_TO_CAMERA

/-- ParallaxFlags::OFFSET_CAMERA_TOP = OFFSET_CAMERA_BOTTOM | POSITIVE_OFFSET. -/
def ParallaxFlags.OFFSET_CAMERA_TOP : ParallaxFlags :=
  ParallaxFlags.OFFSET_CAMERA_BOTTOM.union ParallaxFlags.POSITIVE_OFFSET

/-- ParallaxFlags::DEFAULT = REPEAT_X_AXIS | OFFSET_CAMERA_BOTTOM. -/
def ParallaxFlags.DEFAULT : ParallaxFlags :=
  ParallaxFlags.REPEAT_X_AXIS.union ParallaxFlags.OFFSET_CAMERA_BOTTOM

/-- Embeds `bitflags`' `contains`: `self & flag == flag`. -/
def ParallaxFlags.contains (self flag : ParallaxFlags) : Bool :=
  self.bits &&& flag.bits == flag.bits

/-- Embeds `translation_with_depth_and_flags` (src/systems.rs, lines 164-187):
per axis, a locked axis is zeroed, a non-repeating axis is damped by the depth
factor, a repeating axis passes through; a depth without a factor yields zero. -/
def translation_with_depth_and_flags (translation : Vec2) (depth : Depth)
    (flags : ParallaxFlags) : Vec2 :=
  match depth.depth_factor with
  | none => Vec2.ZERO
  | some depth_factor =>
    let tx :=
      if flags.contains ParallaxFlags.LOCKED_X_AXIS then
        0
      else if !flags.contains ParallaxFlags.REPEAT_X_AXIS then
        translation.x - translation.x * depth_factor
      else
        translation.x
    let ty :=
      if flags.contains ParallaxFlags.LOCKED_Y_AXIS then
        0
      else if !flags.contains ParallaxFlags.REPEAT_Y_AXIS then
        translation.y - translation.y * depth_factor
      else
        translation.y
    ⟨tx, ty⟩

/-- Embeds `ParallaxLayerData` (src/components.rs, lines 82-86). -/
structure ParallaxLayerData where
  depth : Depth
  offset : Vec2
  flags : ParallaxFlags
deriving DecidableEq, Repr

/-- Embeds `bevy`'s `ImageAddressMode` variants used by the placement pass. -/
inductive ImageAddressMode where
  | Repeat : ImageAddressMode
  | ClampToEdge : ImageAddressMode
deriving DecidableEq, Repr

/-- Collects every value the placement pass writes for one layer: the updated
layer data, the two sampler tiling modes, the transform translation (2D part
and z), the transform scale, and the three material parameters. -/
structure ProcessedLayer where
  parallax : ParallaxLayerData
  tile_mode_x : ImageAddressMode
  tile_mode_y : ImageAddressMode
  depth_factor : Vec2
  translation_xy : Vec2
  translation_z : ℚ
  transform_scale : Vec2
  repeat_scale : Vec2
  material_depth : Vec2
  material_offset : Vec2
deriving DecidableEq, Repr

/-- Embeds the per-layer body of `process_new_parallax_layer_data`
(src/systems.rs, lines 72-142) as a function of the camera viewport size, the
native image dimensions, the layer's data and the context.  The Rust `unwrap`
of the freshly resolved factor is rendered as `Option.getD 0`; resolution
always produces a `WorldWithFactor`, so the default is never taken. -/
def process_new_parallax_layer_data (camera_size image_dimensions : Vec2)
    (parallax0 : ParallaxLayerData) (parallax_context : ParallaxContext) : ProcessedLayer :=
  let depth := parallax0.depth.to_world_with_factor parallax_context
  let depth_factor0 := depth.depth_factor.getD 0
  let df := Vec2.splat depth_factor0
  let px :=
    if parallax0.flags.contains ParallaxFlags.REPEAT_X_AXIS then
      (ImageAddressMode.Repeat, camera_size.x, df.x)
    else
      (ImageAddressMode.ClampToEdge, image_dimensions.x, 0)
  let py :=
    if parallax0.flags.contains ParallaxFlags.REPEAT_Y_AXIS then
      (ImageAddressMode.Repeat, camera_size.y, df.y)
    else
      (ImageAddressMode.ClampToEdge, image_dimensions.y, 0)
  let scaled_image_dimensions : Vec2 := ⟨px.2.1, py.2.1⟩
  let depth_factor : Vec2 := ⟨px.2.2, py.2.2⟩
  let camera_translation :=
    translation_with_depth_and_flags parallax0.offset depth parallax0.flags
  let offset1 := parallax0.offset - camera_translation
  let offset2 :=
    if parallax0.flags.contains ParallaxFlags.OFFSET_TO_CAMERA then
      let off :=
        if parallax0.flags.contains ParallaxFlags.HORIZONTAL_OFFSET then
          (⟨(camera_size.x - scaled_image_dimensions.x) / 2, 0⟩ : Vec2)
        else
          (⟨0, (camera_size.y - scaled_image_dimensions.y) / 2⟩ : Vec2)
      if parallax0.flags.contains ParallaxFlags.POSITIVE_OFFSET then
        offset1 + off
      else
        offset1 - off
    else
      offset1
  { parallax := { depth := depth, offset := offset2, flags := parallax0.flags }
    tile_mode_x := px.1
    tile_mode_y := py.1
    depth_factor := depth_factor
    translation_xy := offset2
    translation_z := depth.depth
    transform_scale := scaled_image_dimensions
    repeat_scale := scaled_image_dimensions / image_dimensions
    material_depth := depth_factor / scaled_image_dimensions
    material_offset := offset2 }

/-- Embeds the fold step of `despawn_front_layer` (src/commands.rs, lines
17-21): a layer replaces the running best exactly when its depth compares
strictly greater. -/
def despawn_front_step (acc : Option Nat × Depth) (l : Nat × Depth) : Option Nat × Depth :=
  if l.2.gt acc.2 then (some l.1, l.2) else acc

/-- Embeds the scan of `despawn_front_layer` (src/commands.rs, lines 16-21),
seeded with `(None, Depth::from_world(f32::MIN, 1.0))`. -/
def despawn_front_scan (layers : List (Nat × Depth)) : Option Nat × Depth :=
  layers.foldl despawn_front_step (none, Depth.from_world f32MIN 1)

/-- Embeds `despawn_front_layer` (src/commands.rs, lines 13-27) on a world
modelled as a list of entity-id/layer-depth pairs: the scanned winner, if any,
is despawned (the first entity with its id is erased). -/
def despawn_front_layer (layers : List (Nat × Depth)) : List (Nat × Depth) :=
  match (despawn_front_scan layers).1 with
  | some front_entity => layers.eraseP (fun l => l.1 == front_entity)
  | none => layers

/-- Embeds the fold step of `despawn_back_layer` (src/commands.rs, lines
33-37): a layer replaces the running best exactly when its depth compares
strictly less. -/
def despawn_back_step (acc : Option Nat × Depth) (l : Nat × Depth) : Option Nat × Depth :=
  if l.2.lt acc.2 then (some l.1, l.2) else acc

/-- Embeds the scan of `despawn_back_layer` (src/commands.rs, lines 32-37),
seeded with `(None, Depth::from_world(f32::MAX, 1.0))`. -/
def despawn_back_scan (layers : List (Nat × Depth)) : Option Nat × Depth :=
  layers.foldl despawn_back_step (none, Depth.from_world f32MAX 1)

/-- Embeds `despawn_back_layer` (src/commands.rs, lines 29-43). -/
def despawn_back_layer (layers : List (Nat × Depth)) : List (Nat × Depth) :=
  match (despawn_back_scan layers).1 with
  | some back_entity => layers.eraseP (fun l => l.1 == back_entity)
  | none => layers

/-- Embeds `ParallaxPlugin` (src/plugin.rs, line 25), a newtype over the
configuration. -/
structure ParallaxPlugin where
  cfg : ParallaxConfig
deriving DecidableEq, Repr

/-- Embeds `ParallaxPlugin::new` (src/plugin.rs, lines 65-76): panics when
`near_depth >= far_depth` (modelled as `none`); otherwise stores the two bounds,
sets the neutral depth to their midpoint, and takes the remaining fields (the
scale) from the default configuration. -/
def ParallaxPlugin.new (near_depth far_depth : ℚ) : Option ParallaxPlugin :=
  if far_depth ≤ near_depth then
    none
  else
    some ⟨{ ParallaxConfig.default with
      near_depth := near_depth
      neutral_depth := (near_depth + far_depth) / 2
      far_depth := far_depth }⟩

/-! Helper lemmas about the strict comparison operators on `Depth`. -/

/-- Helper: strict greater-than between two resolved depths compares values. -/
@[simp] theorem Depth.gt_wwf_wwf (v f m g : ℚ) :
    (Depth.WorldWithFactor v f).gt (Depth.WorldWithFactor m g) ↔ m < v := by
  simp only [Depth.gt, Depth.pcmp]
  split_ifs with h1 h2
  · exact iff_of_false (by simp) (by linarith)
  · exact iff_of_false (by simp) (by simp [h2])
  · exact iff_of_true rfl (lt_of_le_of_ne (not_lt.mp h1) (fun h => h2 h.symm))

/-- Helper: an unresolved depth is never strictly greater than a resolved one. -/
@[simp] theorem Depth.not_gt_parallax_wwf (v m g : ℚ) :
    ¬(Depth.Parallax v).gt (Depth.WorldWithFactor m g) := by
  simp [Depth.gt, Depth.pcmp]

/-- Helper: strict less-than between two resolved depths compares values. -/
@[simp] theorem Depth.lt_wwf_wwf (v f m g : ℚ) :
    (Depth.WorldWithFactor v f).lt (Depth.WorldWithFactor m g) ↔ v < m := by
  simp only [Depth.lt, Depth.pcmp]
  split_ifs with h1 h2
  · exact iff_of_true rfl h1
  · exact iff_of_false (by simp) (by simp [h2])
  · exact iff_of_false (by simp) (not_lt.mpr (not_lt.mp h1))

/-- Helper: an unresolved depth is never strictly less than a resolved one. -/
@[simp] theorem Depth.not_lt_parallax_wwf (v m g : ℚ) :
    ¬(Depth.Parallax v).lt (Depth.WorldWithFactor m g) := by
  simp [Depth.lt, Depth.pcmp]

/-- C4: resolution is idempotent: resolving an already-resolved depth is the
identity, so `from_parallax(v).resolve(ctx).resolve(ctx) =
from_parallax(v).resolve(ctx)`; and for every depth `d` and factor `f`,
`from_world(d, f).resolve(ctx)` is `from_world(d, f)` itself, with value `d`
and factor exactly `f` (in particular the factor is never multiplied by the
global scale on this path). -/
theorem resolve_idempotent_from_world_authoritative :
    (∀ (v : ℚ) (ctx : ParallaxContext),
      ((Depth.from_parallax v).to_world_with_factor ctx).to_world_with_factor ctx =
        (Depth.from_parallax v).to_world_with_factor ctx) ∧
    (∀ (d f : ℚ) (ctx : ParallaxContext),
      (Depth.from_world d f).to_world_with_factor ctx = Depth.from_world d f ∧
      (Depth.from_world d f).depth = d ∧
      (Depth.from_world d f).depth_factor = some f) :=
  ⟨fun _ _ => rfl, fun _ _ _ => ⟨rfl, rfl, rfl⟩⟩

/-- C5: for every pair of depths of different tags — even with equal stored
values — equality is `false` in both directions and partial comparison is
`none` (incomparable) in both directions. -/
theorem depth_cross_tag_not_equal_incomparable :
    ∀ (a b f : ℚ),
      Depth.eqb (Depth.Parallax a) (Depth.WorldWithFactor b f) = false ∧
      Depth.eqb (Depth.WorldWithFactor b f) (Depth.Parallax a) = false ∧
      Depth.pcmp (Depth.Parallax a) (Depth.WorldWithFactor b f) = none ∧
      Depth.pcmp (Depth.WorldWithFactor b f) (Depth.Parallax a) = none :=
  fun _ _ _ => ⟨rfl, rfl, rfl, rfl⟩

/-- C9: `calculate_depth_factor` is total with no division-by-zero: whenever
neither clamp branch fires (so the division branch is the one taken), the
world depth is strictly below the near bound and the denominator
`near_depth - world_depth` is nonzero. -/
theorem depth_factor_division_guard :
    ∀ (ctx : ParallaxContext) (world_depth : ℚ),
      ¬world_depth ≤ ctx.cfg.far_depth →
      ¬ctx.cfg.near_depth ≤ world_depth →
      ctx.cfg.near_depth - world_depth ≠ 0 ∧
      ctx.calculate_depth_factor world_depth =
        ctx.cfg.near_depth / (ctx.cfg.near_depth - world_depth) * ctx.cfg.scale := by
  intro ctx w h1 h2
  have hlt : w < ctx.cfg.near_depth := not_le.mp h2
  refine ⟨ne_of_gt (sub_pos.mpr hlt), ?_⟩
  unfold ParallaxContext.calculate_depth_factor
  rw [if_neg h1, if_neg h2]

/-- Witness for C9: the default configuration (converted bounds `near = 10`,
`far = -100`) at world depth `0` reaches the division branch with a nonzero
denominator. -/
theorem depth_factor_division_guard_witness :
    (ParallaxContext.new ParallaxConfig.default).cfg.near_depth - 0 ≠ 0 ∧
    (ParallaxContext.new ParallaxConfig.default).calculate_depth_factor 0 =
      (ParallaxContext.new ParallaxConfig.default).cfg.near_depth /
        ((ParallaxContext.new ParallaxConfig.default).cfg.near_depth - 0) *
        (ParallaxContext.new ParallaxConfig.default).cfg.scale :=
  depth_factor_division_guard (ParallaxContext.new ParallaxConfig.default) 0
    (by norm_num [ParallaxContext.new, ParallaxConfig.default, ParallaxConfig.convert_depth])
    (by norm_num [ParallaxContext.new, ParallaxConfig.default, ParallaxConfig.convert_depth])

/-- C10: for every pair `near_depth < far_depth`, the public constructor
succeeds and produces a configuration whose neutral depth is the midpoint
`(near_depth + far_depth) / 2` (and whose scale keeps the default `1`), rather
than the `ParallaxConfig` default neutral depth of `0`. -/
theorem plugin_new_neutral_midpoint :
    ∀ near_depth far_depth : ℚ, near_depth < far_depth →
      ParallaxPlugin.new near_depth far_depth =
        some ⟨{ scale := 1, near_depth := near_depth,
                neutral_depth := (near_depth + far_depth) / 2,
                far_depth := far_depth }⟩ := by
  intro n f h
  unfold ParallaxPlugin.new
  rw [if_neg (not_le.mpr h)]
  rfl

/-- Witness for C10: `ParallaxPlugin::new(-10, 100)` stores neutral depth
`(-10 + 100) / 2 = 45`, not the default `0`. -/
theorem plugin_new_neutral_midpoint_witness :
    ParallaxPlugin.new (-10) 100 =
      some ⟨{ scale := 1, near_depth := -10,
              neutral_depth := ((-10) + 100) / 2, far_depth := 100 }⟩ :=
  plugin_new_neutral_midpoint (-10) 100 (by norm_num)

/-- C7: `ParallaxContext::new` converts both depth bounds
(`bound ↦ neutral_depth - bound`) exactly when the given config has
`near_depth < far_depth`, stores the config unchanged otherwise, and leaves
`neutral_depth` and `scale` untouched in every case. -/
theorem context_new_bound_conversion :
    ∀ config : ParallaxConfig,
      (config.near_depth < config.far_depth →
        ParallaxContext.new config =
          ⟨{ config with
              near_depth := config.neutral_depth - config.near_depth,
              far_depth := config.neutral_depth - config.far_depth }⟩) ∧
      (¬config.near_depth < config.far_depth →
        ParallaxContext.new config = ⟨config⟩) ∧
      (ParallaxContext.new config).cfg.neutral_depth = config.neutral_depth ∧
      (ParallaxContext.new config).cfg.scale = config.scale := by
  intro config
  refine ⟨fun h => ?_, fun h => ?_, ?_, ?_⟩
  · unfold ParallaxContext.new
    rw [if_pos h]
    rfl
  · unfold ParallaxContext.new
    rw [if_neg h]
  · unfold ParallaxContext.new
    split <;> rfl
  · unfold ParallaxContext.new
    split <;> rfl

/-- Witness for C7: the default configuration has `near_depth = -10 < 100 =
far_depth`, so both bounds are converted relative to the neutral depth. -/
theorem context_new_bound_conversion_witness :
    ParallaxContext.new ParallaxConfig.default =
      ⟨{ ParallaxConfig.default with
          near_depth := ParallaxConfig.default.neutral_depth - ParallaxConfig.default.near_depth,
          far_depth := ParallaxConfig.default.neutral_depth - ParallaxConfig.default.far_depth }⟩ :=
  (context_new_bound_conversion ParallaxConfig.default).1
    (by norm_num [ParallaxConfig.default])

/-- C1: evaluation of resolution for the context built from
`scale = 2, neutral_depth = 5` and the default bounds, under the
spec-modelled `ParallaxContext::scale` accessor (the converted bounds are
`near = 15`, `far = -95`).  The resolved values are
`(neutral - v) * scale`: `30`, `-190`, `0` and `-30` — not the `15`, `-95`,
`0` and `-15` asserted by the crate's own test suite
(src/depth.rs, lines 140-176) — and the factor at `v = 20` is `2/3`, not `1`. -/
theorem resolution_examples_under_modelled_scale :
    ((Depth.from_parallax (-10)).to_world_with_factor
      (ParallaxContext.new ⟨2, -10, 5, 100⟩)).depth = 30 ∧
    ((Depth.from_parallax (-10)).to_world_with_factor
      (ParallaxContext.new ⟨2, -10, 5, 100⟩)).depth_factor =
      some (ParallaxContext.DEPTH_FACTOR_MAX * 2) ∧
    ((Depth.from_parallax 100).to_world_with_factor
      (ParallaxContext.new ⟨2, -10, 5, 100⟩)).depth = -190 ∧
    ((Depth.from_parallax 100).to_world_with_factor
      (ParallaxContext.new ⟨2, -10, 5, 100⟩)).depth_factor =
      some (ParallaxContext.DEPTH_FACTOR_MIN * 2) ∧
    ((Depth.from_parallax 5).to_world_with_factor
      (ParallaxContext.new ⟨2, -10, 5, 100⟩)).depth = 0 ∧
    ((Depth.from_parallax 5).to_world_with_factor
      (ParallaxContext.new ⟨2, -10, 5, 100⟩)).depth_factor = some 2 ∧
    ((Depth.from_parallax 20).to_world_with_factor
      (ParallaxContext.new ⟨2, -10, 5, 100⟩)).depth = -30 ∧
    ((Depth.from_parallax 20).to_world_with_factor
      (ParallaxContext.new ⟨2, -10, 5, 100⟩)).depth_factor = some (2 / 3) := by
  norm_num [ParallaxContext.new, ParallaxConfig.convert_depth, ParallaxContext.convert_depth,
    ParallaxContext.scale, ParallaxContext.calculate_depth_factor,
    ParallaxContext.DEPTH_FACTOR_MIN, ParallaxContext.DEPTH_FACTOR_MAX,
    Depth.from_parallax, Depth.to_world_with_factor, Depth.depth, Depth.depth_factor]

/-- C3: `translation_with_depth_and_flags` acts per axis independently: a
locked axis yields `0` (overriding the repeat flag), a non-repeating axis
yields `component * (1 - factor)`, a repeating axis passes the raw camera
component through; a depth without a factor yields `(0, 0)`.  In particular,
for camera offset `(1, 1)` and a resolved depth with factor `1/2`: no flags
gives `(1/2, 1/2)`, `LOCKED_X_AXIS` gives `(0, 1/2)`, both axes locked gives
`(0, 0)`, and `REPEAT_X_AXIS` gives `(1, 1/2)`. -/
theorem translation_axis_rules :
    (∀ (t : Vec2) (d : Depth) (flags : ParallaxFlags) (f : ℚ),
      d.depth_factor = some f →
      translation_with_depth_and_flags t d flags =
        ⟨if flags.contains ParallaxFlags.LOCKED_X_AXIS then 0
          else if flags.contains ParallaxFlags.REPEAT_X_AXIS then t.x
          else t.x * (1 - f),
         if flags.contains ParallaxFlags.LOCKED_Y_AXIS then 0
          else if flags.contains ParallaxFlags.REPEAT_Y_AXIS then t.y
          else t.y * (1 - f)⟩) ∧
    (∀ (t : Vec2) (d : Depth) (flags : ParallaxFlags),
      d.depth_factor = none →
      translation_with_depth_and_flags t d flags = Vec2.ZERO) ∧
    translation_with_depth_and_flags ⟨1, 1⟩ (Depth.from_world (-10) (1 / 2))
      ParallaxFlags.NONE = ⟨1 / 2, 1 / 2⟩ ∧
    translation_with_depth_and_flags ⟨1, 1⟩ (Depth.from_world (-10) (1 / 2))
      ParallaxFlags.LOCKED_X_AXIS = ⟨0, 1 / 2⟩ ∧
    translation_with_depth_and_flags ⟨1, 1⟩ (Depth.from_world (-10) (1 / 2))
      (ParallaxFlags.LOCKED_X_AXIS.union ParallaxFlags.LOCKED_Y_AXIS) = ⟨0, 0⟩ ∧
    translation_with_depth_and_flags ⟨1, 1⟩ (Depth.from_world (-10) (1 / 2))
      ParallaxFlags.REPEAT_X_AXIS = ⟨1, 1 / 2⟩ := by
  have general : ∀ (t : Vec2) (d : Depth) (flags : ParallaxFlags) (f : ℚ),
      d.depth_factor = some f →
      translation_with_depth_and_flags t d flags =
        ⟨if flags.contains ParallaxFlags.LOCKED_X_AXIS then 0
          else if flags.contains ParallaxFlags.REPEAT_X_AXIS then t.x
          else t.x * (1 - f),
         if flags.contains ParallaxFlags.LOCKED_Y_AXIS then 0
          else if flags.contains ParallaxFlags.REPEAT_Y_AXIS then t.y
          else t.y * (1 - f)⟩ := by
    intro t d flags f h
    simp only [translation_with_depth_and_flags, h]
    cases hlx : flags.contains ParallaxFlags.LOCKED_X_AXIS <;>
      cases hrx : flags.contains ParallaxFlags.REPEAT_X_AXIS <;>
        cases hly : flags.contains ParallaxFlags.LOCKED_Y_AXIS <;>
          cases hry : flags.contains ParallaxFlags.REPEAT_Y_AXIS <;>
            simp [hlx, hrx, hly, hry, Vec2.mk.injEq] <;> (try constructor) <;> ring
  refine ⟨general, fun t d flags h => ?_, ?_, ?_, ?_, ?_⟩
  · simp only [translation_with_depth_and_flags, h]
  · rw [general ⟨1, 1⟩ (Depth.from_world (-10) (1 / 2)) ParallaxFlags.NONE (1 / 2) rfl]
    have h1 : ParallaxFlags.NONE.contains ParallaxFlags.LOCKED_X_AXIS = false := by decide
    have h2 : ParallaxFlags.NONE.contains ParallaxFlags.REPEAT_X_AXIS = false := by decide
    have h3 : ParallaxFlags.NONE.contains ParallaxFlags.LOCKED_Y_AXIS = false := by decide
    have h4 : ParallaxFlags.NONE.contains ParallaxFlags.REPEAT_Y_AXIS = false := by decide
    rw [h1, h2, h3, h4]
    norm_num
  · rw [general ⟨1, 1⟩ (Depth.from_world (-10) (1 / 2)) ParallaxFlags.LOCKED_X_AXIS (1 / 2) rfl]
    have h1 : ParallaxFlags.LOCKED_X_AXIS.contains ParallaxFlags.LOCKED_X_AXIS = true := by decide
    have h3 : ParallaxFlags.LOCKED_X_AXIS.contains ParallaxFlags.LOCKED_Y_AXIS = false := by decide
    have h4 : ParallaxFlags.LOCKED_X_AXIS.contains ParallaxFlags.REPEAT_Y_AXIS = false := by decide
    rw [h1, h3, h4]
    norm_num
  · rw [general ⟨1, 1⟩ (Depth.from_world (-10) (1 / 2))
      (ParallaxFlags.LOCKED_X_AXIS.union ParallaxFlags.LOCKED_Y_AXIS) (1 / 2) rfl]
    have h1 : (ParallaxFlags.LOCKED_X_AXIS.union ParallaxFlags.LOCKED_Y_AXIS).contains
        ParallaxFlags.LOCKED_X_AXIS = true := by decide
    have h3 : (ParallaxFlags.LOCKED_X_AXIS.union ParallaxFlags.LOCKED_Y_AXIS).contains
        ParallaxFlags.LOCKED_Y_AXIS = true := by decide
    rw [h1, h3]
    norm_num
  · rw [general ⟨1, 1⟩ (Depth.from_world (-10) (1 / 2)) ParallaxFlags.REPEAT_X_AXIS (1 / 2) rfl]
    have h1 : ParallaxFlags.REPEAT_X_AXIS.contains ParallaxFlags.LOCKED_X_AXIS = false := by decide
    have h2 : ParallaxFlags.REPEAT_X_AXIS.contains ParallaxFlags.REPEAT_X_AXIS = true := by decide
    have h3 : ParallaxFlags.REPEAT_X_AXIS.contains ParallaxFlags.LOCKED_Y_AXIS = false := by decide
    have h4 : ParallaxFlags.REPEAT_X_AXIS.contains ParallaxFlags.REPEAT_Y_AXIS = false := by decide
    rw [h1, h2, h3, h4]
    norm_num

/-- Witness for C3: the per-axis rule applied at camera offset `(2, 3)`,
`from_world(7, 2)` and `LOCKED_X_AXIS`: the x component is zeroed, the y
component becomes `3 * (1 - 2) = -3`. -/
theorem translation_axis_rules_witness :
    translation_with_depth_and_flags ⟨2, 3⟩ (Depth.from_world 7 2)
      ParallaxFlags.LOCKED_X_AXIS = ⟨0, -3⟩ := by
  have h := translation_axis_rules.1 ⟨2, 3⟩ (Depth.from_world 7 2)
    ParallaxFlags.LOCKED_X_AXIS 2 rfl
  rw [h]
  have h1 : ParallaxFlags.LOCKED_X_AXIS.contains ParallaxFlags.LOCKED_X_AXIS = true := by decide
  have h3 : ParallaxFlags.LOCKED_X_AXIS.contains ParallaxFlags.LOCKED_Y_AXIS = false := by decide
  have h4 : ParallaxFlags.LOCKED_X_AXIS.contains ParallaxFlags.REPEAT_Y_AXIS = false := by decide
  rw [h1, h3, h4]
  norm_num

/-- Counterexample for C2: `calculate_depth_factor` is not monotone
non-increasing.  For the context of the crate's own test (neutral depth `5`,
default bounds, scale `1`; converted bounds `near = 15`, `far = -95`), the
factor at world depth `-15` is `1/2` and at world depth `0` is `1`, so the
factor strictly increases from `w1 = -15` to `w2 = 0`. -/
theorem depth_factor_monotone_counterexample :
    let ctx := ParallaxContext.new
      { scale := 1, near_depth := -10, neutral_depth := 5, far_depth := 100 }
    (-15 : ℚ) ≤ 0 ∧
    ¬(ctx.calculate_depth_factor 0 ≤ ctx.calculate_depth_factor (-15)) := by
  refine ⟨by norm_num, ?_⟩
  norm_num [ParallaxContext.new, ParallaxConfig.convert_depth,
    ParallaxContext.calculate_depth_factor,
    ParallaxContext.DEPTH_FACTOR_MIN, ParallaxContext.DEPTH_FACTOR_MAX]

/-- C2 (amended): `calculate_depth_factor` clamps to
`DEPTH_FACTOR_MIN = 0` at or beyond the far bound and to
`DEPTH_FACTOR_MAX * scale` at or beyond the near bound (given `far < near`,
which holds for every context built by `ParallaxContext::new` from a
non-degenerate config); it is monotone non-DEcreasing — not non-increasing —
as the world depth increases, for contexts with nonnegative stored near bound
and nonnegative scale, on world depths up to
`(DEPTH_FACTOR_MAX - 1) / DEPTH_FACTOR_MAX * near` (just below the near
bound the uncapped interpolation `near / (near - w)` exceeds
`DEPTH_FACTOR_MAX` before snapping down to the cap, so monotonicity stops
there); and the result is multiplied by the configured scale in every
branch. -/
theorem depth_factor_clamps_scales_monotone :
    (∀ (ctx : ParallaxContext) (w : ℚ),
      w ≤ ctx.cfg.far_depth →
      ctx.calculate_depth_factor w = ParallaxContext.DEPTH_FACTOR_MIN) ∧
    (∀ (ctx : ParallaxContext) (w : ℚ),
      ctx.cfg.far_depth < ctx.cfg.near_depth →
      ctx.cfg.near_depth ≤ w →
      ctx.calculate_depth_factor w = ParallaxContext.DEPTH_FACTOR_MAX * ctx.cfg.scale) ∧
    (∀ (ctx : ParallaxContext) (w1 w2 : ℚ),
      0 ≤ ctx.cfg.near_depth →
      0 ≤ ctx.cfg.scale →
      w1 ≤ w2 →
      w2 ≤ (ParallaxContext.DEPTH_FACTOR_MAX - 1) / ParallaxContext.DEPTH_FACTOR_MAX *
        ctx.cfg.near_depth →
      ctx.calculate_depth_factor w1 ≤ ctx.calculate_depth_factor w2) ∧
    (∀ (config : ParallaxConfig) (w : ℚ),
      (ParallaxContext.mk config).calculate_depth_factor w =
        (ParallaxContext.mk { config with scale := 1 }).calculate_depth_factor w *
          config.scale) := by
  refine ⟨?_, ?_, ?_, ?_⟩
  · intro ctx w h
    unfold ParallaxContext.calculate_depth_factor
    rw [if_pos h]
    simp [ParallaxContext.DEPTH_FACTOR_MIN]
  · intro ctx w hfn hnw
    unfold ParallaxContext.calculate_depth_factor
    rw [if_neg (not_le.mpr (lt_of_lt_of_le hfn hnw)), if_pos hnw]
  · intro ctx w1 w2 hn hs h12 hcap
    obtain ⟨⟨s, n, ne, fa⟩⟩ := ctx
    simp only [ParallaxContext.calculate_depth_factor,
      ParallaxContext.DEPTH_FACTOR_MIN, ParallaxContext.DEPTH_FACTOR_MAX] at hn hs hcap ⊢
    norm_num at hcap
    apply mul_le_mul_of_nonneg_right _ hs
    by_cases h2f : w2 ≤ fa
    · rw [if_pos (le_trans h12 h2f), if_pos h2f]
    · rw [if_neg h2f]
      by_cases h2n : n ≤ w2
      · rw [if_pos h2n]
        have hn0 : n = 0 := by nlinarith
        subst hn0
        split_ifs with ha hb
        · norm_num
        · norm_num
        · rw [zero_div]
          norm_num
      · rw [if_neg h2n]
        have hw2n : w2 < n := not_le.mp h2n
        have hpos2 : 0 < n - w2 := by linarith
        split_ifs with ha hb
        · exact div_nonneg hn (le_of_lt hpos2)
        · exact absurd (le_trans hb h12) h2n
        · have hw1n : w1 < n := not_le.mp hb
          have hpos1 : 0 < n - w1 := by linarith
          rw [div_le_div_iff₀ hpos1 hpos2]
          nlinarith
  · intro config w
    obtain ⟨s, n, ne, fa⟩ := config
    unfold ParallaxContext.calculate_depth_factor
    split_ifs <;> ring

/-- Witness for C2 (amended): for the context with stored bounds
`near = 10`, `far = -100` and scale `1`, the factor at world depth `0` is at
most the factor at world depth `5` (indeed `1 ≤ 2`). -/
theorem depth_factor_clamps_scales_monotone_witness :
    (ParallaxContext.mk ⟨1, 10, 0, -100⟩).calculate_depth_factor 0 ≤
      (ParallaxContext.mk ⟨1, 10, 0, -100⟩).calculate_depth_factor 5 :=
  depth_factor_clamps_scales_monotone.2.2.1 (ParallaxContext.mk ⟨1, 10, 0, -100⟩) 0 5
    (by norm_num) (by norm_num) (by norm_num)
    (by norm_num [ParallaxContext.DEPTH_FACTOR_MAX])

/-- C8: during placement, per axis independently: with the REPEAT flag set for
an axis, the tiling mode for that axis is repeat, the rendered size along that
axis is the viewport size, and the motion depth-factor component keeps the
resolved factor; without it, the tiling mode is clamp, the rendered size is
the native image size, and the depth-factor component is forced to `0`. -/
theorem placement_axis_rules :
    ∀ (camera_size image_dimensions : Vec2) (p : ParallaxLayerData)
      (ctx : ParallaxContext),
      (p.flags.contains ParallaxFlags.REPEAT_X_AXIS = true →
        (process_new_parallax_layer_data camera_size image_dimensions p ctx).tile_mode_x =
          ImageAddressMode.Repeat ∧
        (process_new_parallax_layer_data camera_size image_dimensions p ctx).transform_scale.x =
          camera_size.x ∧
        (process_new_parallax_layer_data camera_size image_dimensions p ctx).depth_factor.x =
          ((p.depth.to_world_with_factor ctx).depth_factor.getD 0)) ∧
      (p.flags.contains ParallaxFlags.REPEAT_X_AXIS = false →
        (process_new_parallax_layer_data camera_size image_dimensions p ctx).tile_mode_x =
          ImageAddressMode.ClampToEdge ∧
        (process_new_parallax_layer_data camera_size image_dimensions p ctx).transform_scale.x =
          image_dimensions.x ∧
        (process_new_parallax_layer_data camera_size image_dimensions p ctx).depth_factor.x = 0) ∧
      (p.flags.contains ParallaxFlags.REPEAT_Y_AXIS = true →
        (process_new_parallax_layer_data camera_size image_dimensions p ctx).tile_mode_y =
          ImageAddressMode.Repeat ∧
        (process_new_parallax_layer_data camera_size image_dimensions p ctx).transform_scale.y =
          camera_size.y ∧
        (process_new_parallax_layer_data camera_size image_dimensions p ctx).depth_factor.y =
          ((p.depth.to_world_with_factor ctx).depth_factor.getD 0)) ∧
      (p.flags.contains ParallaxFlags.REPEAT_Y_AXIS = false →
        (process_new_parallax_layer_data camera_size image_dimensions p ctx).tile_mode_y =
          ImageAddressMode.ClampToEdge ∧
        (process_new_parallax_layer_data camera_size image_dimensions p ctx).transform_scale.y =
          image_dimensions.y ∧
        (process_new_parallax_layer_data camera_size image_dimensions p ctx).depth_factor.y = 0) := by
  intro camera_size image_dimensions p ctx
  refine ⟨fun h => ?_, fun h => ?_, fun h => ?_, fun h => ?_⟩ <;>
    simp [process_new_parallax_layer_data, h, Vec2.splat]

/-- Witness for C8: a layer with only `REPEAT_X_AXIS`, resolved depth
`from_world(1, 1)`, viewport `(8, 6)` and image size `(2, 3)`: the x axis
tiles with size `8` keeping factor `1`. -/
theorem placement_axis_rules_witness :
    (process_new_parallax_layer_data ⟨8, 6⟩ ⟨2, 3⟩
      ⟨Depth.from_world 1 1, ⟨0, 0⟩, ParallaxFlags.REPEAT_X_AXIS⟩
      ⟨ParallaxConfig.default⟩).tile_mode_x = ImageAddressMode.Repeat ∧
    (process_new_parallax_layer_data ⟨8, 6⟩ ⟨2, 3⟩
      ⟨Depth.from_world 1 1, ⟨0, 0⟩, ParallaxFlags.REPEAT_X_AXIS⟩
      ⟨ParallaxConfig.default⟩).transform_scale.x = (⟨8, 6⟩ : Vec2).x ∧
    (process_new_parallax_layer_data ⟨8, 6⟩ ⟨2, 3⟩
      ⟨Depth.from_world 1 1, ⟨0, 0⟩, ParallaxFlags.REPEAT_X_AXIS⟩
      ⟨ParallaxConfig.default⟩).depth_factor.x =
      (((Depth.from_world 1 1).to_world_with_factor ⟨ParallaxConfig.default⟩).depth_factor.getD 0) :=
  (placement_axis_rules ⟨8, 6⟩ ⟨2, 3⟩
    ⟨Depth.from_world 1 1, ⟨0, 0⟩, ParallaxFlags.REPEAT_X_AXIS⟩
    ⟨ParallaxConfig.default⟩).1 (by decide)

/-- Helper: the `despawn_front_layer` fold over a list of resolved layers,
from an arbitrary accumulator: either no layer's value beats the accumulator
value and the fold is the identity, or the fold selects the first layer
attaining the maximum of the accumulator value and all layer values. -/
theorem despawn_front_scan_go :
    ∀ (rest : List (Nat × Depth)) (o : Option Nat) (m g : ℚ),
      (∀ p ∈ rest, ∃ v f, p.2 = Depth.WorldWithFactor v f) →
      ((∀ p ∈ rest, p.2.depth ≤ m) ∧
        rest.foldl despawn_front_step (o, Depth.WorldWithFactor m g) =
          (o, Depth.WorldWithFactor m g)) ∨
      (∃ pre w post, rest = pre ++ w :: post ∧
        m < w.2.depth ∧
        (∀ p ∈ pre, p.2.depth < w.2.depth) ∧
        (∀ p ∈ post, p.2.depth ≤ w.2.depth) ∧
        rest.foldl despawn_front_step (o, Depth.WorldWithFactor m g) =
          (some w.1, w.2)) := by
  intro rest
  induction rest with
  | nil =>
    intro o m g _
    left
    exact ⟨fun p hp => absurd hp (List.not_mem_nil p), rfl⟩
  | cons l rest ih =>
    intro o m g hres
    obtain ⟨v, f, hl⟩ := hres l (List.mem_cons_self l rest)
    have hres2 : ∀ p ∈ rest, ∃ v f, p.2 = Depth.WorldWithFactor v f :=
      fun p hp => hres p (List.mem_cons_of_mem l hp)
    have hld : l.2.depth = v := by rw [hl]; rfl
    rw [List.foldl_cons]
    by_cases hvm : v ≤ m
    · have hstep : despawn_front_step (o, Depth.WorldWithFactor m g) l =
          (o, Depth.WorldWithFactor m g) := by
        simp only [despawn_front_step, hl, Depth.gt_wwf_wwf]
        rw [if_neg (not_lt.mpr hvm)]
      rw [hstep]
      rcases ih o m g hres2 with ⟨hall, heq⟩ | ⟨pre, w, post, heq, hmw, hpre, hpost, hfold⟩
      · left
        refine ⟨?_, heq⟩
        intro p hp
        rcases List.mem_cons.mp hp with hp | hp
        · rw [hp, hld]; exact hvm
        · exact hall p hp
      · right
        refine ⟨l :: pre, w, post, by simp [heq], hmw, ?_, hpost, hfold⟩
        intro p hp
        rcases List.mem_cons.mp hp with hp | hp
        · rw [hp, hld]; linarith
        · exact hpre p hp
    · have hmv : m < v := not_le.mp hvm
      have hstep : despawn_front_step (o, Depth.WorldWithFactor m g) l =
          (some l.1, Depth.WorldWithFactor v f) := by
        simp only [despawn_front_step, hl, Depth.gt_wwf_wwf]
        rw [if_pos hmv]
      rw [hstep]
      rcases ih (some l.1) v f hres2 with ⟨hall, heq⟩ | ⟨pre, w, post, heq, hvw, hpre, hpost, hfold⟩
      · right
        refine ⟨[], l, rest, rfl, ?_, ?_, ?_, ?_⟩
        · rw [hld]; exact hmv
        · intro p hp; exact absurd hp (List.not_mem_nil p)
        · intro p hp; rw [hld]; exact hall p hp
        · simp only [heq, hl]
      · right
        refine ⟨l :: pre, w, post, by simp [heq], lt_trans hmv hvw, ?_, hpost, hfold⟩
        intro p hp
        rcases List.mem_cons.mp hp with hp | hp
        · rw [hp, hld]; exact hvw
        · exact hpre p hp

/-- Helper: the `despawn_back_layer` fold over a list of resolved layers,
from an arbitrary accumulator: either no layer's value undercuts the
accumulator value and the fold is the identity, or the fold selects the first
layer attaining the minimum of the accumulator value and all layer values. -/
theorem despawn_back_scan_go :
    ∀ (rest : List (Nat × Depth)) (o : Option Nat) (m g : ℚ),
      (∀ p ∈ rest, ∃ v f, p.2 = Depth.WorldWithFactor v f) →
      ((∀ p ∈ rest, m ≤ p.2.depth) ∧
        rest.foldl despawn_back_step (o, Depth.WorldWithFactor m g) =
          (o, Depth.WorldWithFactor m g)) ∨
      (∃ pre w post, rest = pre ++ w :: post ∧
        w.2.depth < m ∧
        (∀ p ∈ pre, w.2.depth < p.2.depth) ∧
        (∀ p ∈ post, w.2.depth ≤ p.2.depth) ∧
        rest.foldl despawn_back_step (o, Depth.WorldWithFactor m g) =
          (some w.1, w.2)) := by
  intro rest
  induction rest with
  | nil =>
    intro o m g _
    left
    exact ⟨fun p hp => absurd hp (List.not_mem_nil p), rfl⟩
  | cons l rest ih =>
    intro o m g hres
    obtain ⟨v, f, hl⟩ := hres l (List.mem_cons_self l rest)
    have hres2 : ∀ p ∈ rest, ∃ v f, p.2 = Depth.WorldWithFactor v f :=
      fun p hp => hres p (List.mem_cons_of_mem l hp)
    have hld : l.2.depth = v := by rw [hl]; rfl
    rw [List.foldl_cons]
    by_cases hvm : m ≤ v
    · have hstep : despawn_back_step (o, Depth.WorldWithFactor m g) l =
          (o, Depth.WorldWithFactor m g) := by
        simp only [despawn_back_step, hl, Depth.lt_wwf_wwf]
        rw [if_neg (not_lt.mpr hvm)]
      rw [hstep]
      rcases ih o m g hres2 with ⟨hall, heq⟩ | ⟨pre, w, post, heq, hmw, hpre, hpost, hfold⟩
      · left
        refine ⟨?_, heq⟩
        intro p hp
        rcases List.mem_cons.mp hp with hp | hp
        · rw [hp, hld]; exact hvm
        · exact hall p hp
      · right
        refine ⟨l :: pre, w, post, by simp [heq], hmw, ?_, hpost, hfold⟩
        intro p hp
        rcases List.mem_cons.mp hp with hp | hp
        · rw [hp, hld]; linarith
        · exact hpre p hp
    · have hmv : v < m := not_le.mp hvm
      have hstep : despawn_back_step (o, Depth.WorldWithFactor m g) l =
          (some l.1, Depth.WorldWithFactor v f) := by
        simp only [despawn_back_step, hl, Depth.lt_wwf_wwf]
        rw [if_pos hmv]
      rw [hstep]
      rcases ih (some l.1) v f hres2 with ⟨hall, heq⟩ | ⟨pre, w, post, heq, hvw, hpre, hpost, hfold⟩
      · right
        refine ⟨[], l, rest, rfl, ?_, ?_, ?_, ?_⟩
        · rw [hld]; exact hmv
        · intro p hp; exact absurd hp (List.not_mem_nil p)
        · intro p hp; rw [hld]; exact hall p hp
        · simp only [heq, hl]
      · right
        refine ⟨l :: pre, w, post, by simp [heq], lt_trans hvw hmv, ?_, hpost, hfold⟩
        intro p hp
        rcases List.mem_cons.mp hp with hp | hp
        · rw [hp, hld]; exact hvw
        · exact hpre p hp

/-- Counterexample for C6: a nonempty world whose only layer sits exactly at
the scan's sentinel value `f32::MIN` — a value the public
`Depth::from_world(f32::MIN, 1.0)` can produce — is left untouched by
`despawn_front_layer`: the strict `>` against the seed
`Depth::from_world(f32::MIN, 1.0)` never fires, so the layer with the maximum
resolved depth value is not removed. -/
theorem despawn_front_sentinel_noop :
    [((0 : Nat), Depth.from_world f32MIN 1)] ≠ [] ∧
    despawn_front_layer [((0 : Nat), Depth.from_world f32MIN 1)] =
      [((0 : Nat), Depth.from_world f32MIN 1)] := by
  refine ⟨by simp, ?_⟩
  norm_num [despawn_front_layer, despawn_front_scan, despawn_front_step, Depth.from_world]

/-- C6 (amended): on a world of resolved layers with distinct entity ids whose
values lie strictly above `f32::MIN` (for the front scan) respectively
strictly below `f32::MAX` (for the back scan), `despawn_front_layer` removes
exactly the first layer attaining the maximum resolved depth value and
`despawn_back_layer` exactly the first layer attaining the minimum — ties are
broken by the strict `>`/`<` comparison, so an equal later value never
replaces the first — and both operations are no-ops on the empty world.  On
the four layers with depths `[10, -12, 0, 4]`: a front-despawn removes the
`10` layer, a subsequent back-despawn removes `-12`, alternating despawns
empty the set, and despawning on the empty set changes nothing. -/
theorem despawn_extremal_layers :
    (∀ layers : List (Nat × Depth),
      (∀ p ∈ layers, ∃ v f, p.2 = Depth.WorldWithFactor v f ∧ f32MIN < v) →
      (layers.map Prod.fst).Nodup →
      layers ≠ [] →
      ∃ pre w post, layers = pre ++ w :: post ∧
        (∀ p ∈ pre, p.2.depth < w.2.depth) ∧
        (∀ p ∈ layers, p.2.depth ≤ w.2.depth) ∧
        despawn_front_layer layers = pre ++ post) ∧
    (∀ layers : List (Nat × Depth),
      (∀ p ∈ layers, ∃ v f, p.2 = Depth.WorldWithFactor v f ∧ v < f32MAX) →
      (layers.map Prod.fst).Nodup →
      layers ≠ [] →
      ∃ pre w post, layers = pre ++ w :: post ∧
        (∀ p ∈ pre, w.2.depth < p.2.depth) ∧
        (∀ p ∈ layers, w.2.depth ≤ p.2.depth) ∧
        despawn_back_layer layers = pre ++ post) ∧
    despawn_front_layer [] = [] ∧
    despawn_back_layer [] = [] ∧
    despawn_front_layer [(0, Depth.from_world 10 1), (1, Depth.from_world (-12) 1),
      (2, Depth.from_world 0 1), (3, Depth.from_world 4 1)] =
      [(1, Depth.from_world (-12) 1), (2, Depth.from_world 0 1), (3, Depth.from_world 4 1)] ∧
    despawn_back_layer [(1, Depth.from_world (-12) 1), (2, Depth.from_world 0 1),
      (3, Depth.from_world 4 1)] = [(2, Depth.from_world 0 1), (3, Depth.from_world 4 1)] ∧
    despawn_front_layer [(2, Depth.from_world 0 1), (3, Depth.from_world 4 1)] =
      [(2, Depth.from_world 0 1)] ∧
    despawn_back_layer [(2, Depth.from_world 0 1)] = [] := by
  refine ⟨?_, ?_, rfl, rfl, ?_, ?_, ?_, ?_⟩
  · intro layers hres hnodup hne
    have hres2 : ∀ p ∈ layers, ∃ v f, p.2 = Depth.WorldWithFactor v f := by
      intro p hp
      obtain ⟨v, f, h1, _⟩ := hres p hp
      exact ⟨v, f, h1⟩
    rcases despawn_front_scan_go layers none f32MIN 1 hres2 with
      ⟨hall, _⟩ | ⟨pre, w, post, heq, _, hpre, hpost, hfold⟩
    · exfalso
      obtain ⟨p, hp⟩ := List.exists_mem_of_ne_nil layers hne
      obtain ⟨v, f, hw, hv⟩ := hres p hp
      have := hall p hp
      rw [hw] at this
      simp only [Depth.depth] at this
      linarith
    · refine ⟨pre, w, post, heq, hpre, ?_, ?_⟩
      · intro p hp
        rw [heq] at hp
        rcases List.mem_append.mp hp with hp | hp
        · exact le_of_lt (hpre p hp)
        · rcases List.mem_cons.mp hp with hp | hp
          · rw [hp]
          · exact hpost p hp
      · have hscan : despawn_front_scan layers = (some w.1, w.2) := hfold
        rw [heq] at hnodup
        rw [List.map_append, List.map_cons] at hnodup
        have hdisj := (List.nodup_append.mp hnodup).2.2
        have hpre_ne : ∀ b ∈ pre, ¬((fun l : Nat × Depth => l.1 == w.1) b = true) := by
          intro b hb hbw
          rw [beq_iff_eq] at hbw
          exact hdisj (List.mem_map_of_mem Prod.fst hb)
            (by rw [hbw]; exact List.mem_cons_self _ _)
        simp only [despawn_front_layer, hscan]
        rw [heq, List.eraseP_append_right _ hpre_ne, List.eraseP_cons_of_pos (by simp)]
  · intro layers hres hnodup hne
    have hres2 : ∀ p ∈ layers, ∃ v f, p.2 = Depth.WorldWithFactor v f := by
      intro p hp
      obtain ⟨v, f, h1, _⟩ := hres p hp
      exact ⟨v, f, h1⟩
    rcases despawn_back_scan_go layers none f32MAX 1 hres2 with
      ⟨hall, _⟩ | ⟨pre, w, post, heq, _, hpre, hpost, hfold⟩
    · exfalso
      obtain ⟨p, hp⟩ := List.exists_mem_of_ne_nil layers hne
      obtain ⟨v, f, hw, hv⟩ := hres p hp
      have := hall p hp
      rw [hw] at this
      simp only [Depth.depth] at this
      linarith
    · refine ⟨pre, w, post, heq, hpre, ?_, ?_⟩
      · intro p hp
        rw [heq] at hp
        rcases List.mem_append.mp hp with hp | hp
        · exact le_of_lt (hpre p hp)
        · rcases List.mem_cons.mp hp with hp | hp
          · rw [hp]
          · exact hpost p hp
      · have hscan : despawn_back_scan layers = (some w.1, w.2) := hfold
        rw [heq] at hnodup
        rw [List.map_append, List.map_cons] at hnodup
        have hdisj := (List.nodup_append.mp hnodup).2.2
        have hpre_ne : ∀ b ∈ pre, ¬((fun l : Nat × Depth => l.1 == w.1) b = true) := by
          intro b hb hbw
          rw [beq_iff_eq] at hbw
          exact hdisj (List.mem_map_of_mem Prod.fst hb)
            (by rw [hbw]; exact List.mem_cons_self _ _)
        simp only [despawn_back_layer, hscan]
        rw [heq, List.eraseP_append_right _ hpre_ne, List.eraseP_cons_of_pos (by simp)]
  · norm_num [despawn_front_layer, despawn_front_scan, despawn_front_step, Depth.from_world,
      f32MIN, List.eraseP]
  · norm_num [despawn_back_layer, despawn_back_scan, despawn_back_step, Depth.from_world,
      f32MAX, List.eraseP]
  · norm_num [despawn_front_layer, despawn_front_scan, despawn_front_step, Depth.from_world,
      f32MIN, List.eraseP]
    rfl
  · norm_num [despawn_back_layer, despawn_back_scan, despawn_back_step, Depth.from_world,
      f32MAX, List.eraseP]

/-- Witness for C6 (amended): on the singleton world with one resolved layer
of depth `3`, the front despawn removes exactly that layer. -/
theorem despawn_extremal_layers_witness :
    ∃ pre w post,
      [((5 : Nat), Depth.from_world 3 2)] = pre ++ w :: post ∧
      (∀ p ∈ pre, p.2.depth < w.2.depth) ∧
      (∀ p ∈ [((5 : Nat), Depth.from_world 3 2)], p.2.depth ≤ w.2.depth) ∧
      despawn_front_layer [((5 : Nat), Depth.from_world 3 2)] = pre ++ post :=
  despawn_extremal_layers.1 [((5 : Nat), Depth.from_world 3 2)]
    (by
      intro p hp
      rw [List.mem_singleton] at hp
      subst hp
      exact ⟨3, 2, rfl, by norm_num [f32MIN]⟩)
    (by simp)
    (by simp)
